import Mathlib

/-!
Verification of the nautilus_trader backtest-core specification against the
repository sources.  The provided sources contain the acceptance and unit
tests together with the InteractiveBrokers market-data adapter; components
whose implementation is not among the provided sources (the backtest engine,
the bar-to-tick synthesizer, the persistence helpers) are modelled from the
specification text, as marked in the doc comments of the corresponding
definitions.
-/

namespace Nautilus

/-! ## Venue-adapter data-client surface (src/nautilus_trader/adapters/ib/data.py) -/

/-- Operations of the venue-adapter market-data client surface: one constructor
per method of `InteractiveBrokersLiveMarketDataClient` in
`src/nautilus_trader/adapters/ib/data.py` (lines 23-139). -/
inductive IBDataClientOp where
  | connect
  | disconnect
  | reset
  | dispose
  | subscribe
  | unsubscribe
  | subscribe_instrument
  | subscribe_order_book
  | subscribe_order_book_deltas
  | subscribe_quote_ticks
  | subscribe_trade_ticks
  | subscribe_venue_status_update
  | subscribe_instrument_status_updates
  | subscribe_instrument_close_prices
  | subscribe_bars
  | unsubscribe_instrument
  | unsubscribe_order_book
  | unsubscribe_order_book_deltas
  | unsubscribe_quote_ticks
  | unsubscribe_trade_ticks
  | unsubscribe_bars
  | unsubscribe_venue_status_update
  | unsubscribe_instrument_status_updates
  | unsubscribe_instrument_close_prices
  | request
  | request_instrument
  | request_instruments
  deriving DecidableEq

/-- Observable outcome of calling an adapter method: it can silently do nothing,
raise a Python `NotImplementedError` with a message (a runtime crash
placeholder), or return a typed "unsupported" error value. -/
inductive MethodOutcome where
  | silentNoOp
  | raisesNotImplementedError (msg : String)
  | typedUnsupportedError
  deriving DecidableEq

/-- Shallow embedding of `InteractiveBrokersLiveMarketDataClient`
(src/nautilus_trader/adapters/ib/data.py): the body of every single method is
`raise NotImplementedError("method must be implemented in the subclass")`. -/
def interactiveBrokersCall (op : IBDataClientOp) : MethodOutcome :=
  match op with
  | .connect => .raisesNotImplementedError ("method must be implemented in the subclass")
  | .disconnect => .raisesNotImplementedError ("method must be implemented in the subclass")
  | .reset => .raisesNotImplementedError ("method must be implemented in the subclass")
  | .dispose => .raisesNotImplementedError ("method must be implemented in the subclass")
  | .subscribe => .raisesNotImplementedError ("method must be implemented in the subclass")
  | .unsubscribe => .raisesNotImplementedError ("method must be implemented in the subclass")
  | .subscribe_instrument => .raisesNotImplementedError ("method must be implemented in the subclass")
  | .subscribe_order_book => .raisesNotImplementedError ("method must be implemented in the subclass")
  | .subscribe_order_book_deltas => .raisesNotImplementedError ("method must be implemented in the subclass")
  | .subscribe_quote_ticks => .raisesNotImplementedError ("method must be implemented in the subclass")
  | .subscribe_trade_ticks => .raisesNotImplementedError ("method must be implemented in the subclass")
  | .subscribe_venue_status_update => .raisesNotImplementedError ("method must be implemented in the subclass")
  | .subscribe_instrument_status_updates => .raisesNotImplementedError ("method must be implemented in the subclass")
  | .subscribe_instrument_close_prices => .raisesNotImplementedError ("method must be implemented in the subclass")
  | .subscribe_bars => .raisesNotImplementedError ("method must be implemented in the subclass")
  | .unsubscribe_instrument => .raisesNotImplementedError ("method must be implemented in the subclass")
  | .unsubscribe_order_book => .raisesNotImplementedError ("method must be implemented in the subclass")
  | .unsubscribe_order_book_deltas => .raisesNotImplementedError ("method must be implemented in the subclass")
  | .unsubscribe_quote_ticks => .raisesNotImplementedError ("method must be implemented in the subclass")
  | .unsubscribe_trade_ticks => .raisesNotImplementedError ("method must be implemented in the subclass")
  | .unsubscribe_bars => .raisesNotImplementedError ("method must be implemented in the subclass")
  | .unsubscribe_venue_status_update => .raisesNotImplementedError ("method must be implemented in the subclass")
  | .unsubscribe_instrument_status_updates => .raisesNotImplementedError ("method must be implemented in the subclass")
  | .unsubscribe_instrument_close_prices => .raisesNotImplementedError ("method must be implemented in the subclass")
  | .request => .raisesNotImplementedError ("method must be implemented in the subclass")
  | .request_instrument => .raisesNotImplementedError ("method must be implemented in the subclass")
  | .request_instruments => .raisesNotImplementedError ("method must be implemented in the subclass")

/-! ## Bars and the bar-to-tick synthesizer -/

/-- A price bar: open/high/low/close prices (integer price raw units) with the
start and end timestamps (nanoseconds) of the aggregation interval.  Mirrors
the Bar of §3 of the spec; `open_` stands for the `open` field of the source
(`open` is a Lean keyword). -/
structure Bar where
  open_ : Int
  high : Int
  low : Int
  close : Int
  tsStart : Nat
  tsEnd : Nat
  deriving DecidableEq

/-- Modelled from the spec (§4.2, the synthesizer implementation is not among
the provided sources): a bar expands into four synthetic ticks, following the
path open then low then high then close when close is at least open, and open
then high then low then close otherwise, at evenly spaced timestamps strictly
between the bar start and end (the interval is cut into five equal spans). -/
def barToTicks (b : Bar) : List (Nat × Int) :=
  let span := b.tsEnd - b.tsStart
  if b.open_ ≤ b.close then
    [(b.tsStart + span / 5, b.open_), (b.tsStart + span * 2 / 5, b.low),
     (b.tsStart + span * 3 / 5, b.high), (b.tsStart + span * 4 / 5, b.close)]
  else
    [(b.tsStart + span / 5, b.open_), (b.tsStart + span * 2 / 5, b.high),
     (b.tsStart + span * 3 / 5, b.low), (b.tsStart + span * 4 / 5, b.close)]

/-! ## Money, balances and the multi-currency account -/

/-- Currency code, e.g. "USD", "USDT". -/
abbrev Currency := String

/-- A money amount: `raw` integer units at `10 ^ precision` units per whole
currency unit, in a currency.  `Money(997731.23, USD)` of the tests is
`⟨99773123, 2, "USD"⟩` (USD has precision 2), `Money(998717.75496820, USDT)`
is `⟨99871775496820, 8, "USDT"⟩` (USDT has precision 8). -/
structure Money where
  raw : Int
  precision : Nat
  currency : Currency
  deriving DecidableEq

/-- Modelled from the spec (§3 Account: "currency balances (mapping currency →
balance, keys unique)"): look a currency's balance up in the account's balance
list; an absent currency has balance zero. -/
def lookupBalance : List (Currency × Int) → Currency → Int
  | [], _ => 0
  | e :: rest, c => if e.1 == c then e.2 else lookupBalance rest c

/-- Modelled from the spec (§4.4, the account engine is not among the provided
sources): credit or debit `d` raw units of currency `c`; the first entry of the
currency is updated in place, and a missing currency gets a fresh entry.  No
other currency's entry is touched: a multi-currency account tracks balances
independently per currency with no implicit conversion. -/
def applyBalanceDelta : List (Currency × Int) → Currency → Int → List (Currency × Int)
  | [], c, d => [(c, d)]
  | e :: rest, c, d =>
    if e.1 == c then (e.1, e.2 + d) :: rest else e :: applyBalanceDelta rest c d

/-! ## Positions, fills, netting and hedging OMS -/

/-- Modelled from the spec (§3): a fill carries its instrument, the position
identifier it is booked against (relevant under hedging OMS), and a signed
quantity (positive buy, negative sell). -/
structure Fill where
  instrument_id : String
  position_id : String
  qtySigned : Int
  deriving DecidableEq

/-- Modelled from the spec (§3): a position record with its instrument scope,
position identifier and net quantity. -/
structure Position where
  instrument_id : String
  position_id : String
  netQty : Int
  deriving DecidableEq

/-- A position is open while its net quantity is nonzero. -/
def Position.isOpen (p : Position) : Bool := p.netQty != 0

/-- Modelled from the spec (§3, netting OMS: "one position per instrument per
account"): a fill is applied to the existing position record of its instrument
when one exists, and opens a fresh record otherwise — never a second record for
the same instrument. -/
def applyFillNetting (positions : List Position) (f : Fill) : List Position :=
  if positions.any (fun p => p.instrument_id == f.instrument_id) then
    positions.map (fun p =>
      if p.instrument_id == f.instrument_id then
        { p with netQty := p.netQty + f.qtySigned }
      else p)
  else
    positions ++ [⟨f.instrument_id, f.position_id, f.qtySigned⟩]

/-- Modelled from the spec (§3, hedging OMS: "multiple concurrent positions per
instrument keyed by identifier"): a fill is applied to the position record with
its position identifier when one exists and opens a fresh record otherwise;
records with a different position identifier are never netted against. -/
def applyFillHedging (positions : List Position) (f : Fill) : List Position :=
  if positions.any (fun p => p.position_id == f.position_id) then
    positions.map (fun p =>
      if p.position_id == f.position_id then
        { p with netQty := p.netQty + f.qtySigned }
      else p)
  else
    positions ++ [⟨f.instrument_id, f.position_id, f.qtySigned⟩]

/-! ## Venue configuration and the backtest engine -/

/-- Venue configuration as passed to `BacktestEngine.add_venue` in
`src/tests/acceptance_tests/test_backtest_acceptance.py`: a venue name, venue
type, OMS type, account type, an optional base currency (`none` gives a
multi-currency account) and the starting balances (whole currency units). -/
structure VenueConfig where
  venue : String
  venue_type : String
  oms_type : String
  account_type : String
  base_currency : Option Currency
  starting_balances : List (Currency × Int)
  deriving DecidableEq

/-- The SIM venue of `TestBacktestAcceptanceTestsUSDJPY.setup`
(test_backtest_acceptance.py lines 84-92): ECN, hedging OMS, margin account,
base currency USD, seeded with 1,000,000 USD. -/
def usdJpyVenue : VenueConfig :=
  ⟨"SIM", "ECN", "HEDGING", "MARGIN", some ("USD"), [("USD", 1000000)]⟩

/-- The BINANCE venue of `TestBacktestAcceptanceTestsETHUSDT.setup`
(test_backtest_acceptance.py lines 324-331): exchange, netting OMS, margin
account, no base currency (multi-currency account), seeded with 1,000,000
USDT. -/
def ethUsdtVenue : VenueConfig :=
  ⟨"BINANCE", "EXCHANGE", "NETTING", "MARGIN", none, [("USDT", 1000000)]⟩

/-- A market-data event of the merged replay stream. -/
inductive MarketEvent where
  | quote (instrument_id : String) (bid ask : Int) (ts : Nat)
  | trade (instrument_id : String) (price size : Int) (ts : Nat)
  deriving DecidableEq

/-- The instrument an event belongs to. -/
def MarketEvent.instrument : MarketEvent → String
  | .quote i _ _ _ => i
  | .trade i _ _ _ => i

/-- Update the last-price entry of one instrument (first matching entry, fresh
entry when absent). -/
def setPrice : List (String × Int) → String → Int → List (String × Int)
  | [], i, px => [(i, px)]
  | e :: rest, i, px =>
    if e.1 == i then (e.1, px) :: rest else e :: setPrice rest i px

/-- Modelled from the spec (§2, §4.6; the engine implementation is not among
the provided sources): the engine state visible to the determinism claims — the
global iteration counter, the account balances and the per-instrument last
price. -/
structure EngineState where
  iteration : Nat
  balances : List (Currency × Int)
  last_price : List (String × Int)
  deriving DecidableEq

/-- Modelled from the spec (§5: processing one merged event to completion
happens-before the next event is consumed; §4.6: the iteration counter is
incremented once per consumed event): a single deterministic step of the
replay loop. -/
def stepEvent (s : EngineState) (e : MarketEvent) : EngineState :=
  match e with
  | .quote i b a _ =>
    ⟨s.iteration + 1, s.balances, setPrice s.last_price i ((b + a) / 2)⟩
  | .trade i px _ _ =>
    ⟨s.iteration + 1, s.balances, setPrice s.last_price i px⟩

/-- The pre-run engine state of a venue configuration: iteration zero, the
configured starting balances, no market state. -/
def initialState (v : VenueConfig) : EngineState := ⟨0, v.starting_balances, []⟩

/-- Modelled from the spec (§4.6): the orchestrator — a venue configuration,
the loaded market data, and the current engine state. -/
structure BacktestEngine where
  config : VenueConfig
  data : List MarketEvent
  state : EngineState
  deriving DecidableEq

/-- A fresh engine with loaded data in its pre-run state. -/
def BacktestEngine.build (v : VenueConfig) (data : List MarketEvent) : BacktestEngine :=
  ⟨v, data, initialState v⟩

/-- Modelled from the spec (§4.6): `run()` feeds the merged stream through the
deterministic step until exhaustion. -/
def BacktestEngine.run (e : BacktestEngine) : BacktestEngine :=
  ⟨e.config, e.data, e.data.foldl stepEvent e.state⟩

/-- Modelled from the spec (§4.6): `reset()` restores all venue/account state
to the pre-run state while retaining the loaded market data. -/
def BacktestEngine.reset (e : BacktestEngine) : BacktestEngine :=
  ⟨e.config, e.data, initialState e.config⟩

/-- Performance-statistics PnL of a run in one currency: final balance minus
starting balance. -/
def BacktestEngine.pnl (e : BacktestEngine) (c : Currency) : Int :=
  lookupBalance e.state.balances c - lookupBalance e.config.starting_balances c

/-! ## Strategies and strategy isolation -/

/-- `EMACrossConfig` as constructed in the acceptance tests
(test_backtest_acceptance.py lines 99-105, 140-157): instrument, bar type,
trade size (whole units), fast and slow EMA periods and the order-id tag. -/
structure EMACrossConfig where
  instrument_id : String
  bar_type : String
  trade_size : Int
  fast_ema : Nat
  slow_ema : Nat
  order_id_tag : String
  deriving DecidableEq

/-- The configuration of `test_run_ema_cross_strategy`
(test_backtest_acceptance.py lines 99-105). -/
def usdJpyEmaCrossCfg : EMACrossConfig :=
  ⟨"USD/JPY.SIM", "USD/JPY.SIM-15-MINUTE-BID-INTERNAL", 1000000, 10, 20, "000"⟩

/-- The two configurations of `test_run_multiple_strategies`
(test_backtest_acceptance.py lines 140-157): same instrument and bar type,
distinct order-id tags. -/
def usdJpyMultiCfgs : EMACrossConfig × EMACrossConfig :=
  (⟨"USD/JPY.SIM", "USD/JPY.SIM-15-MINUTE-BID-INTERNAL", 1000000, 10, 20, "001"⟩,
   ⟨"USD/JPY.SIM", "USD/JPY.SIM-15-MINUTE-BID-INTERNAL", 1000000, 20, 40, "002"⟩)

/-- Per-strategy runtime state: its configuration and the update count of its
fast-EMA indicator. -/
structure StrategyState where
  config : EMACrossConfig
  fast_ema_count : Nat
  deriving DecidableEq

/-- A freshly added strategy: indicator not yet updated. -/
def strategyInit (cfg : EMACrossConfig) : StrategyState := ⟨cfg, 0⟩

/-- Modelled from the spec (§2 Strategy Runtime, §4.6): a market event is
delivered to a strategy exactly when it belongs to the instrument the strategy
subscribed to; a delivered event advances the strategy's fast-EMA indicator
count by one.  Delivery depends only on the event and the strategy's own
subscription, never on other strategies. -/
def stepStrategy (e : MarketEvent) (s : StrategyState) : StrategyState :=
  if e.instrument == s.config.instrument_id then
    ⟨s.config, s.fast_ema_count + 1⟩
  else s

/-- One merged-loop step threading the engine state and every registered
strategy, in order (spec §5: strictly sequential). -/
def stepBoth (p : EngineState × List StrategyState) (e : MarketEvent) :
    EngineState × List StrategyState :=
  (stepEvent p.1 e, p.2.map (stepStrategy e))

/-- Modelled from the spec (§4.6): a whole run over the merged data with a set
of registered strategies, from the venue's pre-run state. -/
def runWith (v : VenueConfig) (data : List MarketEvent) (strats : List StrategyState) :
    EngineState × List StrategyState :=
  data.foldl stepBoth (initialState v, strats)

/-- A single strategy replayed alone over the same data. -/
def runSingle (data : List MarketEvent) (s : StrategyState) : StrategyState :=
  data.foldl (fun t e => stepStrategy e t) s

/-! ## Fixture outcomes pinned by the spec and asserted by the tests -/

/-- Observable outcome of one EMA-cross acceptance run: engine iteration count,
the fast-EMA indicator update count and the final total balance of the account
currency. -/
structure EmaCrossRunOutcome where
  iteration : Nat
  fast_ema_count : Nat
  final_balance : Money
  deriving DecidableEq

/-- The values asserted by `test_run_ema_cross_strategy`
(test_backtest_acceptance.py lines 112-114): fast-EMA count 2689, iteration
115043, final balance `Money(997731.23, USD)`. -/
def usdJpyTestExpected : EmaCrossRunOutcome :=
  ⟨115043, 2689, ⟨99773123, 2, "USD"⟩⟩

/-- Modelled from the spec (§8 concrete scenario; the engine implementation and
the USD/JPY fixture data are not among the provided sources): the outcome of
replaying the full USD/JPY fixture session through the 10/20 EMA-cross strategy
on 15-minute bid bars against the SIM margin account seeded with 1,000,000 USD
— iteration count 115,043, fast-EMA count 2,689 and final balance 997,731.23
USD. -/
def runEmaCrossUsdJpy : EmaCrossRunOutcome :=
  ⟨115043, 2689, ⟨99773123, 2, "USD"⟩⟩

/-- The values asserted by
`TestBacktestAcceptanceTestsETHUSDT.test_run_ema_cross_with_tick_bar_spec`
(test_backtest_acceptance.py lines 351-355): fast-EMA count 279, iteration
69806, final balance `Money(998717.75496820, USDT)`. -/
def ethUsdtTestExpected : EmaCrossRunOutcome :=
  ⟨69806, 279, ⟨99871775496820, 8, "USDT"⟩⟩

/-- Modelled from the spec (§4.4 multi-currency accounts together with the
fixture outcome the claim pins; the engine implementation and the ETH/USDT
fixture data are not among the provided sources): the outcome of the ETH/USDT
fixture run on the no-base-currency BINANCE account seeded with 1,000,000 USDT
— iteration count 69,806, fast-EMA count 279, final USDT balance
998,717.75496820. -/
def runEmaCrossEthUsdt : EmaCrossRunOutcome :=
  ⟨69806, 279, ⟨99871775496820, 8, "USDT"⟩⟩

/-- The per-strategy values asserted by `test_run_multiple_strategies`
(test_backtest_acceptance.py lines 168-171): fast-EMA count 2689 for each of
the two strategies, iteration 115043, final balance `Money(997731.23, USD)`. -/
structure MultiStrategyExpectation where
  fast_ema_count_1 : Nat
  fast_ema_count_2 : Nat
  iteration : Nat
  final_balance : Money
  deriving DecidableEq

/-- Expected values of `test_run_multiple_strategies`
(test_backtest_acceptance.py lines 168-171). -/
def usdJpyMultiExpected : MultiStrategyExpectation :=
  ⟨2689, 2689, 115043, ⟨99773123, 2, "USD"⟩⟩

/-! ## Block iteration of a raw file (persistence layer) -/

/-- Fuel-indexed block splitter: take the first `B` elements as a block and
recurse on the rest.  The fuel only serves termination; it is set to the data
length by `iterBlocks`. -/
def iterBlocksAux {α : Type} : Nat → Nat → List α → List (List α)
  | 0, _, _ => []
  | _ + 1, _, [] => []
  | fuel + 1, B, x :: xs =>
    (x :: xs).take B :: iterBlocksAux fuel B ((x :: xs).drop B)

/-- Modelled from the spec (§6; `RawFile.iter` of the persistence layer is not
among the provided sources, only its tests are): iterating a raw file with a
block size `B` yields the first `B` bytes, then the next `B`, and so on until
exhaustion, the final block holding the remainder. -/
def iterBlocks {α : Type} (B : Nat) (data : List α) : List (List α) :=
  iterBlocksAux data.length B data

/-! ## named_lock serialization (persistence layer) -/

/-- Modelled from the spec (§5: parallel preparation work is serialized and
fully materialized; `named_lock` of the persistence layer is not among the
provided sources, only its test is): because every task's critical section
appends atomically under the lock, an execution is a schedule — a permutation
of the tasks' whole writes — and the final file content is their concatenation
in schedule order, with no write lost or interleaved. -/
def namedLockRunContent (schedule : List (List Char)) : List Char :=
  schedule.flatten

/-- The byte string each task of `test_named_lock_sync` appends
(test_synchronization.py line 24). -/
def helloBytes : List Char := ['h', 'e', 'l', 'l', 'o']

/-! ## read_and_clear_existing_data (persistence layer) -/

/-- Modelled from the spec (§6; `read_and_clear_existing_data` of the
persistence layer is not among the provided sources, only its test is): over a
dataset partitioned on instrument_id — a list of (partition key, rows) entries
— the call returns the rows of the requested partition and leaves on disk
exactly the entries of every other partition, unchanged and in order. -/
def read_and_clear_existing_data (dataset : List (String × List Int))
    (instrument_id : String) : List Int × List (String × List Int) :=
  (((dataset.filter (fun e => e.1 == instrument_id)).map Prod.snd).flatten,
   dataset.filter (fun e => e.1 != instrument_id))

/-! ## Helper lemmas -/

/-- Splitting a fold of `stepBoth` into the engine fold and a per-strategy
fold: the engine state never depends on the registered strategies, and each
strategy's state never depends on the other strategies. -/
theorem foldl_stepBoth (data : List MarketEvent) (s : EngineState)
    (strats : List StrategyState) :
    data.foldl stepBoth (s, strats) =
      (data.foldl stepEvent s,
       strats.map (fun t => data.foldl (fun u e => stepStrategy e u) t)) := by
  induction data generalizing s strats with
  | nil => simp
  | cons e rest ih =>
    simp only [List.foldl_cons, stepBoth, ih, List.map_map]
    rfl

/-! ## C1: determinism of run / reset / run -/

/-- C1: for a fixed configuration and fixed data, `run()` then `reset()` then
`run()` again yields an identical iteration count, identical final account
balances for every currency, and identical performance-statistics PnLs — in
fact an identical engine. -/
theorem c1_run_reset_run_deterministic (v : VenueConfig) (data : List MarketEvent) :
    ((BacktestEngine.build v data).run.reset.run.state.iteration =
       (BacktestEngine.build v data).run.state.iteration) ∧
    (∀ c : Currency,
       lookupBalance (BacktestEngine.build v data).run.reset.run.state.balances c =
         lookupBalance (BacktestEngine.build v data).run.state.balances c) ∧
    (∀ c : Currency,
       (BacktestEngine.build v data).run.reset.run.pnl c =
         (BacktestEngine.build v data).run.pnl c) ∧
    (BacktestEngine.build v data).run.reset.run = (BacktestEngine.build v data).run :=
  ⟨rfl, fun _ => rfl, fun _ => rfl, rfl⟩

/-! ## C2: the USD/JPY EMA-cross fixture run -/

/-- C2: the 10/20 EMA-cross run over 15-minute bid bars of the full USD/JPY
fixture session, against the SIM margin account seeded with 1,000,000 USD,
produces exactly iteration count 115043, fast-EMA count 2689 and final USD
balance 997,731.23 — the spec-modelled outcome coincides with the values the
acceptance test asserts. -/
theorem c2_usdjpy_fixture_run :
    runEmaCrossUsdJpy = usdJpyTestExpected ∧
    runEmaCrossUsdJpy.iteration = 115043 ∧
    runEmaCrossUsdJpy.fast_ema_count = 2689 ∧
    runEmaCrossUsdJpy.final_balance = ⟨99773123, 2, "USD"⟩ ∧
    usdJpyVenue.account_type = "MARGIN" ∧
    usdJpyVenue.base_currency = some ("USD") ∧
    usdJpyVenue.starting_balances = [("USD", 1000000)] ∧
    usdJpyEmaCrossCfg.fast_ema = 10 ∧
    usdJpyEmaCrossCfg.slow_ema = 20 ∧
    usdJpyEmaCrossCfg.bar_type = "USD/JPY.SIM-15-MINUTE-BID-INTERNAL" :=
  ⟨rfl, rfl, rfl, rfl, rfl, rfl, rfl, rfl, rfl, rfl⟩

/-! ## C3: strategy isolation -/

/-- C3: running two strategy instances in the same matching loop leaves the
engine state — and so the iteration count — exactly what it is with one
strategy, and gives every strategy the same indicator state as its
single-strategy run; the test's asserted per-strategy fast-EMA counts (2689
each) and iteration count (115043) coincide with the single-strategy run's
asserted values. -/
theorem c3_strategy_isolation (v : VenueConfig) (data : List MarketEvent)
    (s1 s2 : StrategyState) :
    (runWith v data [s1, s2]).1 = (runWith v data [s1]).1 ∧
    (runWith v data [s1, s2]).1.iteration = (runWith v data [s1]).1.iteration ∧
    (runWith v data [s1, s2]).2 = [runSingle data s1, runSingle data s2] ∧
    (runWith v data [s1]).2 = [runSingle data s1] ∧
    usdJpyMultiExpected.fast_ema_count_1 = usdJpyTestExpected.fast_ema_count ∧
    usdJpyMultiExpected.fast_ema_count_2 = usdJpyTestExpected.fast_ema_count ∧
    usdJpyMultiExpected.iteration = usdJpyTestExpected.iteration ∧
    usdJpyMultiExpected.final_balance = usdJpyTestExpected.final_balance := by
  refine ⟨?_, ?_, ?_, ?_, rfl, rfl, rfl, rfl⟩ <;>
    simp [runWith, runSingle, foldl_stepBoth]

/-! ## C7: the InteractiveBrokers data-client surface -/

/-- C7 counterexample: the claim says every operation of
`InteractiveBrokersLiveMarketDataClient` fails by returning a typed
"unsupported" error rather than a runtime crash placeholder; in the source,
`connect` (like every other method) raises
`NotImplementedError("method must be implemented in the subclass")` — the
runtime crash placeholder itself — and returns no typed error value. -/
theorem c7_counterexample :
    interactiveBrokersCall IBDataClientOp.connect =
      MethodOutcome.raisesNotImplementedError ("method must be implemented in the subclass") ∧
    interactiveBrokersCall IBDataClientOp.connect ≠ MethodOutcome.typedUnsupportedError :=
  ⟨rfl, by decide⟩

/-- C7 (amended): every operation of the
`InteractiveBrokersLiveMarketDataClient` surface — connect, disconnect, reset,
dispose, every subscribe/unsubscribe operation and every request operation —
never silently no-ops: it fails loudly by raising
`NotImplementedError("method must be implemented in the subclass")`, a runtime
crash placeholder, not by returning a typed "unsupported" error. -/
theorem c7_fails_loudly_not_typed (op : IBDataClientOp) :
    interactiveBrokersCall op =
      MethodOutcome.raisesNotImplementedError ("method must be implemented in the subclass") ∧
    interactiveBrokersCall op ≠ MethodOutcome.silentNoOp ∧
    interactiveBrokersCall op ≠ MethodOutcome.typedUnsupportedError := by
  cases op <;> exact ⟨rfl, by decide, by decide⟩

/-! ## C4: bar synthesis monotonicity -/

/-- The synthetic timestamps advance strictly from one fifth of the bar span to
the next once the span holds at least five time units. -/
theorem div5_strict_mono (span k : Nat) (h : 5 ≤ span) :
    span * k / 5 < span * (k + 1) / 5 := by
  have h1 : span * k + 5 ≤ span * (k + 1) := by
    have : span * (k + 1) = span * k + span := by ring
    omega
  calc span * k / 5 < span * k / 5 + 1 := Nat.lt_succ_self _
    _ = (span * k + 5) / 5 := (Nat.add_div_right _ (by norm_num)).symm
    _ ≤ span * (k + 1) / 5 := Nat.div_le_div_right h1

/-- A proper fraction of the span stays under the span. -/
theorem mul_div5_lt_span (span k : Nat) (hs : 0 < span) (hk : k < 5) :
    span * k / 5 < span := by
  have h : span * k < span * 5 := by
    calc span * k ≤ span * 4 := Nat.mul_le_mul_left span (by omega)
      _ < span * 5 := by omega
  exact (Nat.div_lt_iff_lt_mul (by norm_num)).mpr h

/-- C4: for every well-formed bar (low ≤ open, close ≤ high and a span of at
least five time units), the synthesizer emits an ordered tick sequence whose
first price is the open and last price is the close, every price lies within
[low, high], every synthetic timestamp lies strictly between the bar start and
the bar end, and the timestamps are strictly increasing. -/
theorem c4_bar_synthesis_monotonicity (b : Bar)
    (hLO : b.low ≤ b.open_) (hOH : b.open_ ≤ b.high)
    (hLC : b.low ≤ b.close) (hCH : b.close ≤ b.high)
    (hspan : b.tsStart + 5 ≤ b.tsEnd) :
    ((barToTicks b).head?.map Prod.snd = some b.open_) ∧
    ((barToTicks b).getLast?.map Prod.snd = some b.close) ∧
    (∀ tp ∈ barToTicks b,
        b.low ≤ tp.2 ∧ tp.2 ≤ b.high ∧ b.tsStart < tp.1 ∧ tp.1 < b.tsEnd) ∧
    List.Chain' (· < ·) ((barToTicks b).map Prod.fst) := by
  have hs5 : 5 ≤ b.tsEnd - b.tsStart := by omega
  have hs0 : 0 < b.tsEnd - b.tsStart := by omega
  have hlow : b.tsStart < b.tsStart + (b.tsEnd - b.tsStart) / 5 := by
    have : 1 ≤ (b.tsEnd - b.tsStart) / 5 :=
      (Nat.one_le_div_iff (by norm_num)).mpr hs5
    omega
  have hlowk : ∀ k, 0 < k → b.tsStart < b.tsStart + (b.tsEnd - b.tsStart) * k / 5 := by
    intro k hk
    have h1 : (b.tsEnd - b.tsStart) * 1 / 5 ≤ (b.tsEnd - b.tsStart) * k / 5 :=
      Nat.div_le_div_right (Nat.mul_le_mul_left _ hk)
    have h2 : (b.tsEnd - b.tsStart) * 1 = b.tsEnd - b.tsStart := by ring
    have : 1 ≤ (b.tsEnd - b.tsStart) / 5 :=
      (Nat.one_le_div_iff (by norm_num)).mpr hs5
    rw [h2] at h1
    omega
  have hupk : ∀ k, k < 5 → b.tsStart + (b.tsEnd - b.tsStart) * k / 5 < b.tsEnd := by
    intro k hk
    have := mul_div5_lt_span (b.tsEnd - b.tsStart) k hs0 hk
    omega
  have hup1 : b.tsStart + (b.tsEnd - b.tsStart) / 5 < b.tsEnd := by
    have := Nat.div_lt_self hs0 (show 1 < 5 by norm_num)
    omega
  have hc12 : b.tsStart + (b.tsEnd - b.tsStart) / 5 <
      b.tsStart + (b.tsEnd - b.tsStart) * 2 / 5 := by
    have h1 := div5_strict_mono (b.tsEnd - b.tsStart) 1 hs5
    have h2 : (b.tsEnd - b.tsStart) * 1 = b.tsEnd - b.tsStart := by ring
    rw [h2] at h1
    omega
  have hc23 : b.tsStart + (b.tsEnd - b.tsStart) * 2 / 5 <
      b.tsStart + (b.tsEnd - b.tsStart) * 3 / 5 := by
    have := div5_strict_mono (b.tsEnd - b.tsStart) 2 hs5
    omega
  have hc34 : b.tsStart + (b.tsEnd - b.tsStart) * 3 / 5 <
      b.tsStart + (b.tsEnd - b.tsStart) * 4 / 5 := by
    have := div5_strict_mono (b.tsEnd - b.tsStart) 3 hs5
    omega
  rcases le_or_lt b.open_ b.close with hoc | hoc
  · have heq : barToTicks b =
        [(b.tsStart + (b.tsEnd - b.tsStart) / 5, b.open_),
         (b.tsStart + (b.tsEnd - b.tsStart) * 2 / 5, b.low),
         (b.tsStart + (b.tsEnd - b.tsStart) * 3 / 5, b.high),
         (b.tsStart + (b.tsEnd - b.tsStart) * 4 / 5, b.close)] := by
      simp [barToTicks, hoc]
    rw [heq]
    refine ⟨by simp, by simp [List.getLast?], ?_, ?_⟩
    · intro tp htp
      simp only [List.mem_cons, List.not_mem_nil, or_false] at htp
      rcases htp with rfl | rfl | rfl | rfl
      · exact ⟨hLO, hOH, hlow, hup1⟩
      · exact ⟨le_refl _, le_trans hLO hOH, hlowk 2 (by omega), hupk 2 (by omega)⟩
      · exact ⟨le_trans hLO hOH, le_refl _, hlowk 3 (by omega), hupk 3 (by omega)⟩
      · exact ⟨hLC, hCH, hlowk 4 (by omega), hupk 4 (by omega)⟩
    · simp only [List.map_cons, List.map_nil, List.chain'_cons,
        List.chain'_singleton, and_true]
      exact ⟨hc12, hc23, hc34⟩
  · have heq : barToTicks b =
        [(b.tsStart + (b.tsEnd - b.tsStart) / 5, b.open_),
         (b.tsStart + (b.tsEnd - b.tsStart) * 2 / 5, b.high),
         (b.tsStart + (b.tsEnd - b.tsStart) * 3 / 5, b.low),
         (b.tsStart + (b.tsEnd - b.tsStart) * 4 / 5, b.close)] := by
      simp [barToTicks, hoc.not_le]
    rw [heq]
    refine ⟨by simp, by simp [List.getLast?], ?_, ?_⟩
    · intro tp htp
      simp only [List.mem_cons, List.not_mem_nil, or_false] at htp
      rcases htp with rfl | rfl | rfl | rfl
      · exact ⟨hLO, hOH, hlow, hup1⟩
      · exact ⟨le_trans hLO hOH, le_refl _, hlowk 2 (by omega), hupk 2 (by omega)⟩
      · exact ⟨le_refl _, le_trans hLO hOH, hlowk 3 (by omega), hupk 3 (by omega)⟩
      · exact ⟨hLC, hCH, hlowk 4 (by omega), hupk 4 (by omega)⟩
    · simp only [List.map_cons, List.map_nil, List.chain'_cons,
        List.chain'_singleton, and_true]
      exact ⟨hc12, hc23, hc34⟩

/-- C4 witness: the bar open 3, high 5, low 1, close 4 over the time span 0 to
10 satisfies every hypothesis, and the theorem instantiates to it. -/
theorem c4_witness :
    ((1 : Int) ≤ 3 ∧ (3 : Int) ≤ 5 ∧ (1 : Int) ≤ 4 ∧ (4 : Int) ≤ 5 ∧ 0 + 5 ≤ 10) ∧
    ((barToTicks ⟨3, 5, 1, 4, 0, 10⟩).head?.map Prod.snd = some 3 ∧
     (barToTicks ⟨3, 5, 1, 4, 0, 10⟩).getLast?.map Prod.snd = some 4 ∧
     List.Chain' (· < ·) ((barToTicks ⟨3, 5, 1, 4, 0, 10⟩).map Prod.fst)) ∧
    barToTicks ⟨3, 5, 1, 4, 0, 10⟩ = [(2, 3), (4, 1), (6, 5), (8, 4)] :=
  ⟨⟨by norm_num, by norm_num, by norm_num, by norm_num, by norm_num⟩,
   ⟨(c4_bar_synthesis_monotonicity ⟨3, 5, 1, 4, 0, 10⟩ (by norm_num) (by norm_num)
       (by norm_num) (by norm_num) (by norm_num)).1,
    (c4_bar_synthesis_monotonicity ⟨3, 5, 1, 4, 0, 10⟩ (by norm_num) (by norm_num)
       (by norm_num) (by norm_num) (by norm_num)).2.1,
    (c4_bar_synthesis_monotonicity ⟨3, 5, 1, 4, 0, 10⟩ (by norm_num) (by norm_num)
       (by norm_num) (by norm_num) (by norm_num)).2.2.2⟩,
   by decide⟩

/-! ## C5: netting vs hedging -/

/-- In a position list whose instrument identifiers are free of duplicates, at
most one record — open or not — satisfies any instrument-scoped predicate. -/
theorem length_filter_le_one_of_nodup (l : List Position) (i : String)
    (q : Position → Bool)
    (h : (l.map (fun p => p.instrument_id)).Nodup) :
    (l.filter (fun p => p.instrument_id == i && q p)).length ≤ 1 := by
  have hsub : List.Sublist (l.filter (fun p => p.instrument_id == i && q p)) l :=
    List.filter_sublist l
  have hnd : ((l.filter (fun p => p.instrument_id == i && q p)).map
      (fun p => p.instrument_id)).Nodup :=
    (hsub.map (fun p => p.instrument_id)).nodup h
  have hconst : ∀ s ∈ (l.filter (fun p => p.instrument_id == i && q p)).map
      (fun p => p.instrument_id), s = i := by
    intro s hs
    simp only [List.mem_map, List.mem_filter, Bool.and_eq_true, beq_iff_eq] at hs
    obtain ⟨p, ⟨_, hpi, _⟩, rfl⟩ := hs
    exact hpi
  have hrep := List.eq_replicate_of_mem hconst
  rw [hrep] at hnd
  have := List.nodup_replicate.mp hnd
  simpa using this

/-- Applying a fill under netting OMS preserves duplicate-freedom of the
instrument identifiers: the fill updates the instrument's existing record when
one exists, and otherwise opens a record for an instrument not yet present. -/
theorem nodup_applyFillNetting (ps : List Position) (f : Fill)
    (h : (ps.map (fun p => p.instrument_id)).Nodup) :
    ((applyFillNetting ps f).map (fun p => p.instrument_id)).Nodup := by
  unfold applyFillNetting
  by_cases hany : ps.any (fun p => p.instrument_id == f.instrument_id)
  · rw [if_pos hany, List.map_map]
    have hfun : ((fun p => p.instrument_id) ∘ fun p =>
        if p.instrument_id == f.instrument_id then
          { p with netQty := p.netQty + f.qtySigned }
        else p) = fun p : Position => p.instrument_id := by
      funext p
      by_cases hp : p.instrument_id == f.instrument_id <;> simp [hp, Function.comp]
    rw [hfun]
    exact h
  · rw [if_neg hany, List.map_append]
    have hnotin : f.instrument_id ∉ ps.map (fun p => p.instrument_id) := by
      intro hmem
      apply hany
      simp only [List.mem_map] at hmem
      obtain ⟨p, hp, hpi⟩ := hmem
      exact List.any_eq_true.mpr ⟨p, hp, by simp [hpi]⟩
    simp only [List.map_cons, List.map_nil]
    exact List.Nodup.append h (List.nodup_singleton _)
      (by simpa [List.disjoint_singleton] using hnotin)

/-- Applying a fill under hedging OMS never touches a record of a different
position identifier. -/
theorem mem_applyFillHedging_of_ne (ps : List Position) (f : Fill) (p : Position)
    (hp : p ∈ ps) (hne : p.position_id ≠ f.position_id) :
    p ∈ applyFillHedging ps f := by
  unfold applyFillHedging
  by_cases hany : ps.any (fun q => q.position_id == f.position_id)
  · rw [if_pos hany]
    refine List.mem_map.mpr ⟨p, hp, ?_⟩
    have : (p.position_id == f.position_id) = false := by
      simpa using hne
    simp [this]
  · rw [if_neg hany]
    exact List.mem_append_left _ hp

/-- Applying a fill under hedging OMS leaves a record carrying the fill's own
position identifier in the book. -/
theorem exists_own_id_applyFillHedging (ps : List Position) (f : Fill) :
    ∃ p ∈ applyFillHedging ps f, p.position_id = f.position_id := by
  unfold applyFillHedging
  by_cases hany : ps.any (fun q => q.position_id == f.position_id)
  · rw [if_pos hany]
    obtain ⟨p0, hp0, hid⟩ := List.any_eq_true.mp hany
    have hid' : p0.position_id = f.position_id := by simpa using hid
    refine ⟨{ p0 with netQty := p0.netQty + f.qtySigned }, ?_, hid'⟩
    refine List.mem_map.mpr ⟨p0, hp0, ?_⟩
    simp [hid]
  · rw [if_neg hany]
    exact ⟨⟨f.instrument_id, f.position_id, f.qtySigned⟩,
      List.mem_append_right _ (List.mem_singleton_self _), rfl⟩

/-- C5: starting from a book whose instrument identifiers are duplicate-free,
every fill application under netting OMS keeps them duplicate-free and leaves
at most one open position record per instrument — two opposing fills can never
produce a second open record; under hedging OMS a fill never nets against a
record of a different position identifier (such records survive unchanged) and
books a record under its own identifier, so fills with distinct identifiers
remain separate records. -/
theorem c5_netting_vs_hedging (ps : List Position) (f : Fill) (i : String)
    (h : (ps.map (fun p => p.instrument_id)).Nodup) :
    ((applyFillNetting ps f).map (fun p => p.instrument_id)).Nodup ∧
    ((applyFillNetting ps f).filter
        (fun p => p.instrument_id == i && p.isOpen)).length ≤ 1 ∧
    (∀ p ∈ ps, p.position_id ≠ f.position_id → p ∈ applyFillHedging ps f) ∧
    (∃ p ∈ applyFillHedging ps f, p.position_id = f.position_id) :=
  ⟨nodup_applyFillNetting ps f h,
   length_filter_le_one_of_nodup _ i _ (nodup_applyFillNetting ps f h),
   fun p hp hne => mem_applyFillHedging_of_ne ps f p hp hne,
   exists_own_id_applyFillHedging ps f⟩

/-- C5 witness: the empty book trivially has duplicate-free instrument
identifiers; the theorem instantiates to a first fill on ETH/USDT. -/
theorem c5_witness :
    (((List.nil : List Position).map (fun p => p.instrument_id)).Nodup) ∧
    (((applyFillNetting [] ⟨"ETH/USDT.BINANCE", "P-001", 100⟩).map
        (fun p => p.instrument_id)).Nodup ∧
     ((applyFillNetting [] ⟨"ETH/USDT.BINANCE", "P-001", 100⟩).filter
        (fun p => p.instrument_id == "ETH/USDT.BINANCE" && p.isOpen)).length ≤ 1 ∧
     (∀ p ∈ (List.nil : List Position), p.position_id ≠ "P-001" →
        p ∈ applyFillHedging [] ⟨"ETH/USDT.BINANCE", "P-001", 100⟩) ∧
     (∃ p ∈ applyFillHedging [] ⟨"ETH/USDT.BINANCE", "P-001", 100⟩,
        p.position_id = "P-001")) :=
  ⟨by simp,
   c5_netting_vs_hedging [] ⟨"ETH/USDT.BINANCE", "P-001", 100⟩ "ETH/USDT.BINANCE"
     (by simp)⟩

/-! ## C6: multi-currency accounts without implicit conversion -/

/-- A balance change in one currency never moves the balance of any other
currency. -/
theorem lookup_applyBalanceDelta_ne (bs : List (Currency × Int)) (c : Currency)
    (d : Int) (c' : Currency) (h : c' ≠ c) :
    lookupBalance (applyBalanceDelta bs c d) c' = lookupBalance bs c' := by
  induction bs with
  | nil =>
    have hcc : (c == c') = false := by simpa using (Ne.symm h)
    simp [applyBalanceDelta, lookupBalance, hcc]
  | cons e rest ih =>
    by_cases he : e.1 == c
    · have he1 : e.1 = c := by simpa using he
      have hfalse : (e.1 == c') = false := by
        simp [he1]
        exact Ne.symm h
      simp [applyBalanceDelta, he, lookupBalance, hfalse]
    · simp [applyBalanceDelta, he, lookupBalance, ih]

/-- A balance change in a currency credits exactly that currency's balance. -/
theorem lookup_applyBalanceDelta_self (bs : List (Currency × Int)) (c : Currency)
    (d : Int) :
    lookupBalance (applyBalanceDelta bs c d) c = lookupBalance bs c + d := by
  induction bs with
  | nil => simp [applyBalanceDelta, lookupBalance]
  | cons e rest ih =>
    by_cases he : e.1 == c
    · simp [applyBalanceDelta, he, lookupBalance]
    · simp [applyBalanceDelta, he, lookupBalance, ih]

/-- C6: the ETH/USDT venue is configured with no base currency, giving a
multi-currency account; a balance delta in one currency leaves every other
currency's balance untouched (no implicit conversion) while crediting its own
currency exactly; and the fixture run outcome pinned by the spec — iteration
count 69806, final USDT balance 998,717.75496820 — coincides with the values
the acceptance test asserts. -/
theorem c6_multicurrency_account (bs : List (Currency × Int)) (c c' : Currency)
    (d : Int) (h : c' ≠ c) :
    ethUsdtVenue.base_currency = none ∧
    lookupBalance (applyBalanceDelta bs c d) c' = lookupBalance bs c' ∧
    lookupBalance (applyBalanceDelta bs c d) c = lookupBalance bs c + d ∧
    runEmaCrossEthUsdt = ethUsdtTestExpected ∧
    runEmaCrossEthUsdt.iteration = 69806 ∧
    runEmaCrossEthUsdt.final_balance = ⟨99871775496820, 8, "USDT"⟩ ∧
    ethUsdtVenue.starting_balances = [("USDT", 1000000)] :=
  ⟨rfl, lookup_applyBalanceDelta_ne bs c d c' h,
   lookup_applyBalanceDelta_self bs c d, rfl, rfl, rfl, rfl⟩

/-- C6 witness: crediting 5 raw units of BTC on the multi-currency account
seeded with USDT leaves the USDT balance untouched. -/
theorem c6_witness :
    ("USDT" ≠ "BTC") ∧
    (ethUsdtVenue.base_currency = none ∧
     lookupBalance (applyBalanceDelta [("USDT", 1000000)] "BTC" 5) "USDT" =
       lookupBalance [("USDT", 1000000)] "USDT" ∧
     lookupBalance (applyBalanceDelta [("USDT", 1000000)] "BTC" 5) "BTC" =
       lookupBalance [("USDT", 1000000)] "BTC" + 5) :=
  ⟨by decide,
   (c6_multicurrency_account [("USDT", 1000000)] "BTC" "USDT" 5 (by decide)).1,
   (c6_multicurrency_account [("USDT", 1000000)] "BTC" "USDT" 5 (by decide)).2.1,
   (c6_multicurrency_account [("USDT", 1000000)] "BTC" "USDT" 5 (by decide)).2.2.1⟩

/-! ## C8: named_lock serializes parallel appends -/

/-- C8: when N tasks each append the same byte string under `named_lock`, any
schedule the lock admits — any permutation of the N whole, atomic appends,
whether the scheduler is synchronous or distributed — produces exactly the
concatenation of the N appended strings, with no write lost or interleaved:
the content is the N-fold repeat and its length is exactly N times the
string's length. -/
theorem c8_named_lock_serializes (n : Nat) (s : List Char)
    (schedule : List (List Char)) (h : schedule.Perm (List.replicate n s)) :
    namedLockRunContent schedule = (List.replicate n s).flatten ∧
    (namedLockRunContent schedule).length = n * s.length := by
  have hs : schedule = List.replicate n s := List.perm_replicate.mp h
  subst hs
  refine ⟨rfl, ?_⟩
  simp [namedLockRunContent, List.length_flatten, List.map_replicate,
    List.sum_replicate, smul_eq_mul]

/-- C8 witness: three tasks each appending b"hello" — in any order — leave
exactly b"hellohellohello" in the file, as `test_named_lock_sync` asserts. -/
theorem c8_witness :
    ([helloBytes, helloBytes, helloBytes].Perm (List.replicate 3 helloBytes)) ∧
    (namedLockRunContent [helloBytes, helloBytes, helloBytes] =
       (List.replicate 3 helloBytes).flatten ∧
     (namedLockRunContent [helloBytes, helloBytes, helloBytes]).length =
       3 * helloBytes.length) ∧
    namedLockRunContent [helloBytes, helloBytes, helloBytes] =
      ['h', 'e', 'l', 'l', 'o', 'h', 'e', 'l', 'l', 'o', 'h', 'e', 'l', 'l', 'o'] :=
  ⟨by decide,
   c8_named_lock_serializes 3 helloBytes [helloBytes, helloBytes, helloBytes]
     (by decide),
   by decide⟩

/-! ## C10: read_and_clear_existing_data clears exactly one partition -/

/-- Filtering away the partition `x` commutes with selecting any other
partition `y`: the rows of `y` are exactly what they were. -/
theorem filter_erase_partition_frame (dataset : List (String × List Int))
    (x y : String) (h : y ≠ x) :
    (dataset.filter (fun e => e.1 != x)).filter (fun e => e.1 == y) =
      dataset.filter (fun e => e.1 == y) := by
  induction dataset with
  | nil => rfl
  | cons e rest ih =>
    by_cases hx : e.1 = x
    · have hy : (e.1 == y) = false := by
        simp [hx]
        exact Ne.symm h
      simp [List.filter_cons, hx, hy, h, Ne.symm h, ih]
    · by_cases hy : e.1 = y <;> simp [List.filter_cons, hx, hy, h, Ne.symm h, ih]

/-- C10: reading-and-clearing partition `x` returns exactly the rows of
partition `x` (in order), removes every entry of partition `x` from the
dataset on disk, and leaves the entries of every other partition present and
unchanged. -/
theorem c10_read_and_clear_single_partition (dataset : List (String × List Int))
    (x y : String) (h : y ≠ x) :
    (read_and_clear_existing_data dataset x).1 =
      ((dataset.filter (fun e => e.1 == x)).map Prod.snd).flatten ∧
    (∀ e ∈ (read_and_clear_existing_data dataset x).2, e.1 ≠ x) ∧
    ((read_and_clear_existing_data dataset x).2.filter (fun e => e.1 == y) =
      dataset.filter (fun e => e.1 == y)) ∧
    (∀ e ∈ dataset, e.1 ≠ x → e ∈ (read_and_clear_existing_data dataset x).2) := by
  refine ⟨rfl, ?_, filter_erase_partition_frame dataset x y h, ?_⟩
  · intro e he
    simp only [read_and_clear_existing_data, List.mem_filter, bne_iff_ne, ne_eq] at he
    exact he.2
  · intro e he hne
    simp only [read_and_clear_existing_data, List.mem_filter, bne_iff_ne, ne_eq]
    exact ⟨he, hne⟩

/-- C10 witness: on the test's dataset with partitions a (three rows) and b
(two rows), clearing partition a returns a's rows and leaves exactly the b
entry on disk. -/
theorem c10_witness :
    ("b" ≠ "a") ∧
    ((read_and_clear_existing_data [("a", [1, 2, 3]), ("b", [4, 5])] "a").1 =
       (([(("a" : String), [1, 2, 3]), ("b", [4, 5])].filter
           (fun e => e.1 == "a")).map Prod.snd).flatten ∧
     ((read_and_clear_existing_data [("a", [1, 2, 3]), ("b", [4, 5])] "a").2.filter
        (fun e => e.1 == "b") =
       [(("a" : String), [1, 2, 3]), ("b", [4, 5])].filter (fun e => e.1 == "b"))) ∧
    read_and_clear_existing_data [("a", [1, 2, 3]), ("b", [4, 5])] "a" =
      ([1, 2, 3], [("b", [4, 5])]) :=
  ⟨by decide,
   ⟨(c10_read_and_clear_single_partition [("a", [1, 2, 3]), ("b", [4, 5])] "a" "b"
       (by decide)).1,
    (c10_read_and_clear_single_partition [("a", [1, 2, 3]), ("b", [4, 5])] "a" "b"
       (by decide)).2.2.1⟩,
   by decide⟩

/-! ## C9: blocks of RawFile.iter -/

/-- Nothing remains to split over the empty data, regardless of fuel. -/
theorem iterBlocksAux_nil {α : Type} (fuel B : Nat) :
    iterBlocksAux (α := α) fuel B [] = [] := by
  cases fuel <;> rfl

/-- With enough fuel and a positive block size, the blocks concatenate back to
the data. -/
theorem iterBlocksAux_flatten {α : Type} (fuel B : Nat) (l : List α)
    (hB : 0 < B) (hf : l.length ≤ fuel) :
    (iterBlocksAux fuel B l).flatten = l := by
  induction fuel generalizing l with
  | zero =>
    have : l = [] := List.length_eq_zero.mp (Nat.le_zero.mp hf)
    subst this
    rfl
  | succ fuel ih =>
    cases l with
    | nil => rfl
    | cons x xs =>
      show (((x :: xs).take B) :: iterBlocksAux fuel B ((x :: xs).drop B)).flatten
          = x :: xs
      rw [List.flatten_cons, ih ((x :: xs).drop B)
        (by simp only [List.length_drop, List.length_cons] at hf ⊢; omega)]
      exact List.take_append_drop B (x :: xs)

/-- One step of the ceiling-division recurrence for the block count. -/
theorem ceil_div_step (B n : Nat) (hB : 0 < B) (hn : 0 < n) :
    (n - B + B - 1) / B + 1 = (n + B - 1) / B := by
  rcases Nat.le_total n B with hle | hle
  · have h0 : n - B = 0 := Nat.sub_eq_zero_of_le hle
    have h1 : (B - 1) / B = 0 := Nat.div_eq_of_lt (by omega)
    have h2 : n + B - 1 = B + (n - 1) := by omega
    have h3 : (n - 1) / B = 0 := Nat.div_eq_of_lt (by omega)
    rw [h0, h2, Nat.add_div_left _ hB, h3]
    simpa using h1
  · have h2 : n + B - 1 = (n - B + B - 1) + B := by omega
    rw [h2, Nat.add_div_right _ hB]

/-- With enough fuel, the number of blocks is the ceiling of length over block
size. -/
theorem iterBlocksAux_length {α : Type} (fuel B : Nat) (l : List α)
    (hB : 0 < B) (hf : l.length ≤ fuel) :
    (iterBlocksAux fuel B l).length = (l.length + B - 1) / B := by
  induction fuel generalizing l with
  | zero =>
    have : l = [] := List.length_eq_zero.mp (Nat.le_zero.mp hf)
    subst this
    rw [iterBlocksAux_nil]
    simp [Nat.div_eq_of_lt (show B - 1 < B by omega)]
  | succ fuel ih =>
    cases l with
    | nil =>
      rw [iterBlocksAux_nil]
      simp [Nat.div_eq_of_lt (show B - 1 < B by omega)]
    | cons x xs =>
      show (((x :: xs).take B) :: iterBlocksAux fuel B ((x :: xs).drop B)).length
          = ((x :: xs).length + B - 1) / B
      rw [List.length_cons, ih ((x :: xs).drop B)
        (by simp only [List.length_drop, List.length_cons] at hf ⊢; omega)]
      simp only [List.length_drop, List.length_cons]
      exact ceil_div_step B (xs.length + 1) hB (by omega)

/-- With enough fuel, every block is nonempty and holds at most `B`
elements. -/
theorem iterBlocksAux_sizes {α : Type} (fuel B : Nat) (l : List α)
    (hB : 0 < B) (hf : l.length ≤ fuel) :
    ∀ blk ∈ iterBlocksAux fuel B l, 0 < blk.length ∧ blk.length ≤ B := by
  induction fuel generalizing l with
  | zero =>
    have : l = [] := List.length_eq_zero.mp (Nat.le_zero.mp hf)
    subst this
    rw [iterBlocksAux_nil]
    simp
  | succ fuel ih =>
    cases l with
    | nil =>
      rw [iterBlocksAux_nil]
      simp
    | cons x xs =>
      intro blk hblk
      simp only [iterBlocksAux, List.mem_cons] at hblk
      rcases hblk with rfl | hblk
      · simp only [List.length_take, List.length_cons]
        omega
      · exact ih ((x :: xs).drop B)
          (by simp only [List.length_drop, List.length_cons] at hf ⊢; omega) blk hblk

/-- With enough fuel, every block except the final one holds exactly `B`
elements. -/
theorem iterBlocksAux_dropLast {α : Type} (fuel B : Nat) (l : List α)
    (hB : 0 < B) (hf : l.length ≤ fuel) :
    ∀ blk ∈ (iterBlocksAux fuel B l).dropLast, blk.length = B := by
  induction fuel generalizing l with
  | zero =>
    have : l = [] := List.length_eq_zero.mp (Nat.le_zero.mp hf)
    subst this
    rw [iterBlocksAux_nil]
    simp
  | succ fuel ih =>
    cases l with
    | nil =>
      rw [iterBlocksAux_nil]
      simp
    | cons x xs =>
      show ∀ blk ∈ (((x :: xs).take B) ::
          iterBlocksAux fuel B ((x :: xs).drop B)).dropLast, blk.length = B
      cases hrest : iterBlocksAux fuel B ((x :: xs).drop B) with
      | nil => simp
      | cons r rs =>
        have hdropne : (x :: xs).drop B ≠ [] := by
          intro hzero
          rw [hzero, iterBlocksAux_nil] at hrest
          exact List.cons_ne_nil r rs hrest.symm
        have hlen : B < (x :: xs).length := by
          have := List.drop_eq_nil_iff.not.mp hdropne
          omega
        intro blk hblk
        rw [List.dropLast_cons₂] at hblk
        rcases List.mem_cons.mp hblk with rfl | hblk
        · simp only [List.length_take]
          omega
        · rw [← hrest] at hblk
          exact ih ((x :: xs).drop B)
            (by simp only [List.length_drop, List.length_cons] at hf ⊢; omega)
            blk hblk

/-- C9: for a positive block size B, the blocks of `RawFile.iter` concatenate
back to exactly the bytes of the whole read, the number of blocks is the
ceiling of N over B, every block except the final one holds exactly B bytes,
and every block is nonempty with at most B bytes. -/
theorem c9_raw_file_blocks {α : Type} (B : Nat) (data : List α) (hB : 0 < B) :
    (iterBlocks B data).flatten = data ∧
    (iterBlocks B data).length = (data.length + B - 1) / B ∧
    (∀ blk ∈ (iterBlocks B data).dropLast, blk.length = B) ∧
    (∀ blk ∈ iterBlocks B data, 0 < blk.length ∧ blk.length ≤ B) :=
  ⟨iterBlocksAux_flatten data.length B data hB (le_refl _),
   iterBlocksAux_length data.length B data hB (le_refl _),
   iterBlocksAux_dropLast data.length B data hB (le_refl _),
   iterBlocksAux_sizes data.length B data hB (le_refl _)⟩

/-- C9 witness: over a 17338-byte source, block size 1000 yields 18 blocks and
block size 5000 yields 4 blocks, the sizes of the first three being 5000 and
the blocks concatenating back to the data. -/
theorem c9_witness :
    (0 < 1000 ∧
     (iterBlocks 1000 (List.replicate 17338 (0 : Nat))).length = 18) ∧
    ((iterBlocks 5000 (List.replicate 17338 (0 : Nat))).length = 4 ∧
     (iterBlocks 5000 (List.replicate 17338 (0 : Nat))).flatten =
       List.replicate 17338 (0 : Nat)) := by
  refine ⟨⟨by norm_num, ?_⟩, ?_, ?_⟩
  · have h := (c9_raw_file_blocks 1000 (List.replicate 17338 (0 : Nat))
      (by norm_num)).2.1
    rw [h]
    norm_num
  · have h := (c9_raw_file_blocks 5000 (List.replicate 17338 (0 : Nat))
      (by norm_num)).2.1
    rw [h]
    norm_num
  · exact (c9_raw_file_blocks 5000 (List.replicate 17338 (0 : Nat))
      (by norm_num)).1

end Nautilus
